import Mathlib

/-!
# PCA9557 driver (8-channel GPIO I2C expander)

A shallow embedding of `src/PCA9557.h` and `src/PCA9557.cpp`.

* Bytes (`byte`, `uint8_t`) are natural numbers, reduced `% 256` wherever the
  C++ code converts a wider value to a byte.
* The driver object and the global `Wire` object are an explicit state
  (`Driver`), threaded through every member function.
* The two-wire bus and the chip behind it are a parameter (`Bus`): what a
  transmission and a read request do to the outside world and what they answer.
  `idealBus` is the chip with four byte registers on a bus where every
  transaction succeeds; `scriptedBus` replays a prescribed list of answers.
-/

namespace PCA9557

/-! ## Constants of `PCA9557.h` -/

/-- Constant `#define PCA9557_DEV_ADDR 0x18  //0b0011000R/W`. -/
def PCA9557_DEV_ADDR : Nat := 0x18
/-- Constant `#define PCA9557_NUM_BYTES 0x01`. -/
def PCA9557_NUM_BYTES : Nat := 0x01
/-- Constant `#define PCA9557_ALL_INPUT 0xFF`. -/
def PCA9557_ALL_INPUT : Nat := 0xFF
/-- Constant `#define PCA9557_ALL_OUTPUT 0x00`. -/
def PCA9557_ALL_OUTPUT : Nat := 0x00
/-- Constant `#define PCA9557_ALL_LOW 0x00`. -/
def PCA9557_ALL_LOW : Nat := 0x00
/-- Constant `#define PCA9557_ALL_NON_INVERTED 0x00`. -/
def PCA9557_ALL_NON_INVERTED : Nat := 0x00
/-- Constant `#define PCA9557_ALL_HIGH 0xFF`. -/
def PCA9557_ALL_HIGH : Nat := 0xFF
/-- Constant `#define PCA9557_ALL_INVERTED 0xFF`. -/
def PCA9557_ALL_INVERTED : Nat := 0xFF
/-- Constant `#define PCA9557_COM_SUCCESS 0x00`. -/
def PCA9557_COM_SUCCESS : Nat := 0x00

/-- The address the documentation block of `PCA9557.h` (lines 27-31) prints for
the part: `01000001  0x41  65`. -/
def documentedAddress : Nat := 0x41

/-- Enumerator of `PCA9557_reg_ptr_t`: `REG_INPUT = 0`. -/
def REG_INPUT : Nat := 0
/-- Enumerator of `PCA9557_reg_ptr_t`: `REG_OUTPUT = 1`. -/
def REG_OUTPUT : Nat := 1
/-- Enumerator of `PCA9557_reg_ptr_t`: `REG_POLARITY = 2`. -/
def REG_POLARITY : Nat := 2
/-- Enumerator of `PCA9557_reg_ptr_t`: `REG_CONFIG = 3`. -/
def REG_CONFIG : Nat := 3

/-- Enumerator of `PCA9557_mode_t`: `IO_OUTPUT = 0`. -/
def IO_OUTPUT : Nat := 0
/-- Enumerator of `PCA9557_mode_t`: `IO_INPUT = 1`. -/
def IO_INPUT : Nat := 1
/-- Enumerator of `PCA9557_state_t`: `IO_LOW = 0`. -/
def IO_LOW : Nat := 0
/-- Enumerator of `PCA9557_state_t`: `IO_HIGH = 1`. -/
def IO_HIGH : Nat := 1
/-- Enumerator of `PCA9557_polarity_t`: `IO_NON_INVERTED = 0`. -/
def IO_NON_INVERTED : Nat := 0
/-- Enumerator of `PCA9557_polarity_t`: `IO_INVERTED = 1`. -/
def IO_INVERTED : Nat := 1

/-! ## Integer and bit primitives -/

/-- Bitwise complement `~x` of a value promoted to `int`, in 16-bit two's
complement read as an unsigned number (the `int` of the AVR targets; the low
byte, which is all the driver keeps, is the same for every wider `int`). -/
def intNot (x : Nat) : Nat := 65535 - x % 65536

/-- Modelled from the spec: the bit primitives of `Arduino.h` are not in the
repository; this is `bitRead(value, bit)`, `(((value) >> (bit)) & 0x01)`. -/
def bitRead (value bit : Nat) : Nat := (value >>> bit) &&& 0x01

/-- Modelled from the spec: `bitSet(value, bit)` of `Arduino.h`,
`((value) |= (1UL << (bit)))`, on a `byte` variable (`unsigned long` has 32
bits; the result is stored back into the byte). -/
def bitSet (value bit : Nat) : Nat := (value ||| ((1 <<< bit) % 4294967296)) % 256

/-- Modelled from the spec: `bitClear(value, bit)` of `Arduino.h`,
`((value) &= ~(1UL << (bit)))`, on a `byte` variable. -/
def bitClear (value bit : Nat) : Nat :=
  (value &&& (4294967295 - (1 <<< bit) % 4294967296)) % 256

/-- Modelled from the spec: `bitWrite(value, bit, bitvalue)` of `Arduino.h`,
`((bitvalue) ? bitSet(value, bit) : bitClear(value, bit))`. -/
def bitWrite (value bit bitvalue : Nat) : Nat :=
  if bitvalue ≠ 0 then bitSet value bit else bitClear value bit

/-! ## The bus and the `Wire` object -/

/-- The outside world as the driver sees it through `Wire`: `transmit addr
bytes` is what sending `bytes` to `addr` does (the status `endTransmission`
gets and the new state of the world), `request addr quantity` what a read
request does (the bytes that arrive and the new state of the world). -/
structure Bus (δ : Type) where
  transmit : Nat → List Nat → δ → Nat × δ
  request : Nat → Nat → δ → List Nat × δ

/-- A completed bus transaction, as recorded in the order of issue. -/
inductive Txn where
  | write (addr : Nat) (bytes : List Nat) (status : Nat)
  | read (addr : Nat) (quantity : Nat) (bytes : List Nat)
  deriving DecidableEq

/-- The address a transaction was sent to. -/
def Txn.addr : Txn → Nat
  | .write a _ _ => a
  | .read a _ _ => a

/-- Modelled from the spec: the `Wire` object of the bus library is not in the
repository; its state is the address and bytes of the transmission being
assembled, the bytes received and not yet read, the world behind the bus, and
the record of the transactions issued so far. -/
structure Wire (δ : Type) where
  txAddress : Nat
  txBuffer : List Nat
  rxBuffer : List Nat
  dev : δ
  log : List Txn

namespace Wire

variable {δ : Type}

/-- Member `Wire.beginTransmission(address)`: start assembling a transmission. -/
def beginTransmission (address : Nat) (w : Wire δ) : Wire δ :=
  { w with txAddress := address, txBuffer := [] }

/-- Member `Wire.write(data)`: queue one byte. -/
def write (data : Nat) (w : Wire δ) : Wire δ :=
  { w with txBuffer := w.txBuffer ++ [data % 256] }

/-- Member `Wire.endTransmission()`: send the queued bytes; the result is the status
byte of the bus. -/
def endTransmission (bus : Bus δ) (w : Wire δ) : Nat × Wire δ :=
  let r := bus.transmit w.txAddress w.txBuffer w.dev
  (r.1 % 256,
    { w with txBuffer := [], dev := r.2,
             log := w.log ++ [Txn.write w.txAddress w.txBuffer (r.1 % 256)] })

/-- Member `Wire.requestFrom(address, quantity)`: the bytes that arrive replace the
receive buffer. -/
def requestFrom (bus : Bus δ) (address quantity : Nat) (w : Wire δ) : Wire δ :=
  let r := bus.request address quantity w.dev
  { w with rxBuffer := r.1, dev := r.2,
           log := w.log ++ [Txn.read address quantity r.1] }

/-- Member `Wire.available()`: number of received bytes not yet read. -/
def available (w : Wire δ) : Nat := w.rxBuffer.length

/-- Member `Wire.read()`: the next received byte, or `-1` when there is none. -/
def read (w : Wire δ) : Int × Wire δ :=
  match w.rxBuffer with
  | [] => (-1, w)
  | b :: rest => (((b % 256 : Nat) : Int), { w with rxBuffer := rest })

end Wire

/-- The driver object (`_comBuffer` is its only member) together with the
global `Wire` object it talks to. -/
structure Driver (δ : Type) where
  _comBuffer : Nat
  wire : Wire δ

variable {δ : Type}

/-! ## Member functions of `PCA9557.cpp` -/

/-- Member `PCA9557::ping()`. -/
def ping (bus : Bus δ) (s : Driver δ) : Nat × Driver δ :=
  let r := Wire.endTransmission bus (Wire.beginTransmission PCA9557_DEV_ADDR s.wire)
  (r.1, { s with wire := r.2 })

/-- Member `PCA9557::initCall(regPtr)`. -/
def initCall (regPtr : Nat) (s : Driver δ) : Driver δ :=
  { s with wire := Wire.write regPtr (Wire.beginTransmission PCA9557_DEV_ADDR s.wire) }

/-- Member `PCA9557::endCall()`. -/
def endCall (bus : Bus δ) (s : Driver δ) : Driver δ :=
  let r := Wire.endTransmission bus s.wire
  { _comBuffer := r.1, wire := r.2 }

/-- Member `PCA9557::getComResult()`. -/
def getComResult (s : Driver δ) : Nat := s._comBuffer

/-- The loop `while (Wire.available()) Wire.read();` of `getReg`, run for at
most `fuel` iterations. -/
def drainLoop : Nat → Wire δ → Wire δ
  | 0, w => w
  | fuel + 1, w => if Wire.available w ≠ 0 then drainLoop fuel (Wire.read w).2 else w

/-- The loop `while (Wire.available()) Wire.read();`: every iteration removes
one byte, so as many iterations as there are bytes available suffice. -/
def drain (w : Wire δ) : Wire δ := drainLoop (Wire.available w) w

/-- Member `PCA9557::getReg(regPtr)`. -/
def getReg (bus : Bus δ) (regPtr : Nat) (s : Driver δ) : Nat × Driver δ :=
  let s1 := endCall bus (initCall regPtr s)
  if s1._comBuffer = PCA9557_COM_SUCCESS then
    let w := Wire.requestFrom bus PCA9557_DEV_ADDR PCA9557_NUM_BYTES s1.wire
    if Wire.available w = PCA9557_NUM_BYTES then
      let r := Wire.read w
      (Int.toNat (r.1 % 256), { s1 with wire := r.2 })
    else
      let p := ping bus { s1 with wire := drain w }
      (0, { p.2 with _comBuffer := p.1 })
  else
    (0, s1)

/-- Member `PCA9557::getPin(pin, regPtr)`. -/
def getPin (bus : Bus δ) (pin regPtr : Nat) (s : Driver δ) : Nat × Driver δ :=
  let r := getReg bus regPtr s
  (bitRead r.1 pin, r.2)

/-- Member `PCA9557::setReg(regPtr, newSetting)`. -/
def setReg (bus : Bus δ) (regPtr newSetting : Nat) (s : Driver δ) : Driver δ :=
  if regPtr > 0 then
    endCall bus { s with wire := Wire.write newSetting (initCall regPtr s).wire }
  else
    s

/-- Member `PCA9557::setPin(pin, regPtr, newSetting)`. -/
def setPin (bus : Bus δ) (pin regPtr newSetting : Nat) (s : Driver δ) : Driver δ :=
  let r := getReg bus regPtr s
  setReg bus regPtr (bitWrite r.1 pin newSetting) r.2

/-- Member `PCA9557::getMode(pin)`. -/
def getMode (bus : Bus δ) (pin : Nat) (s : Driver δ) : Nat × Driver δ :=
  getPin bus pin REG_CONFIG s

/-- Member `PCA9557::getState(pin)`: `getPin(pin, getMode(pin) ? IO_LOW : IO_HIGH)`. -/
def getState (bus : Bus δ) (pin : Nat) (s : Driver δ) : Nat × Driver δ :=
  let m := getMode bus pin s
  getPin bus pin (if m.1 ≠ 0 then IO_LOW else IO_HIGH) m.2

/-- Member `PCA9557::getPolarity(pin)`. -/
def getPolarity (bus : Bus δ) (pin : Nat) (s : Driver δ) : Nat × Driver δ :=
  getPin bus pin REG_POLARITY s

/-- Member `PCA9557::setMode(pin, newMode)`. -/
def setMode (bus : Bus δ) (pin newMode : Nat) (s : Driver δ) : Driver δ :=
  setPin bus pin REG_CONFIG newMode s

/-- Member `PCA9557::setMode(newMode)`, all pins. -/
def setModeAll (bus : Bus δ) (newMode : Nat) (s : Driver δ) : Driver δ :=
  setReg bus REG_CONFIG (if newMode ≠ 0 then PCA9557_ALL_INPUT else PCA9557_ALL_OUTPUT) s

/-- Member `PCA9557::setState(pin, newState)`. -/
def setState (bus : Bus δ) (pin newState : Nat) (s : Driver δ) : Driver δ :=
  setPin bus pin REG_OUTPUT newState s

/-- Member `PCA9557::setState(newState)`, all pins. -/
def setStateAll (bus : Bus δ) (newState : Nat) (s : Driver δ) : Driver δ :=
  setReg bus REG_OUTPUT (if newState ≠ 0 then PCA9557_ALL_HIGH else PCA9557_ALL_LOW) s

/-- Member `PCA9557::toggleState(pin)`. -/
def toggleState (bus : Bus δ) (pin : Nat) (s : Driver δ) : Driver δ :=
  let r := getReg bus REG_OUTPUT s
  setReg bus REG_OUTPUT (r.1 ^^^ (1 <<< pin)) r.2

/-- Member `PCA9557::toggleState()`, all pins. -/
def toggleStateAll (bus : Bus δ) (s : Driver δ) : Driver δ :=
  let r := getReg bus REG_OUTPUT s
  setReg bus REG_OUTPUT (intNot r.1) r.2

/-- Member `PCA9557::setPolarity(pin, newPolarity)`. -/
def setPolarity (bus : Bus δ) (pin newPolarity : Nat) (s : Driver δ) : Driver δ :=
  setPin bus pin REG_POLARITY newPolarity s

/-- Member `PCA9557::setPolarity(newPolarity)`, all pins. -/
def setPolarityAll (bus : Bus δ) (newPolarity : Nat) (s : Driver δ) : Driver δ :=
  let polarityVals := getReg bus REG_POLARITY s
  let polarityMask := getReg bus REG_CONFIG polarityVals.2
  let polarityNew :=
    if newPolarity ≠ 0 then PCA9557_ALL_INVERTED else PCA9557_ALL_NON_INVERTED
  setReg bus REG_POLARITY
    ((polarityVals.1 &&& intNot polarityMask.1) ||| (polarityNew &&& polarityMask.1))
    polarityMask.2

/-- Member `PCA9557::reset()`. -/
def reset (bus : Bus δ) (s : Driver δ) : Driver δ :=
  endCall bus (initCall REG_INPUT
    (setPolarityAll bus IO_NON_INVERTED (setStateAll bus IO_HIGH (setModeAll bus IO_INPUT s))))

/-! ## Two buses -/

/-- The four byte registers of the chip and its register pointer. -/
structure Regs where
  input : Nat
  output : Nat
  polarity : Nat
  config : Nat
  ptr : Nat
  deriving DecidableEq

/-- The register a pointer value addresses. -/
def Regs.get (d : Regs) (p : Nat) : Nat :=
  match p with
  | 0 => d.input
  | 1 => d.output
  | 2 => d.polarity
  | 3 => d.config
  | _ => 0xFF

/-- Storing a byte in the register a pointer value addresses (the Input
register is read-only). -/
def Regs.set (d : Regs) (p v : Nat) : Regs :=
  match p with
  | 1 => { d with output := v }
  | 2 => { d with polarity := v }
  | 3 => { d with config := v }
  | _ => d

/-- The chip on a bus where every transaction succeeds: a transmission answers
status 0, its first byte sets the register pointer and a second byte is stored
in the register addressed; a read request returns the one byte of the register
addressed. -/
def idealBus : Bus Regs where
  transmit := fun _ bytes d =>
    match bytes with
    | [] => (0, d)
    | [p] => (0, { d with ptr := p })
    | p :: v :: _ => (0, { Regs.set d p v with ptr := p })
  request := fun _ _ d => ([Regs.get d d.ptr], d)

/-- A bus that replays prescribed answers: the statuses of the transmissions
to come and the byte lists of the read requests to come (status 0 and no byte
once a list is used up). -/
def scriptedBus : Bus (List Nat × List (List Nat)) where
  transmit := fun _ _ d => (d.1.headD 0, (d.1.tail, d.2))
  request := fun _ _ d => (d.2.headD [], (d.1, d.2.tail))

/-- A fresh driver on a `Wire` object with nothing queued, received or
recorded. -/
def Driver.init (d : δ) : Driver δ :=
  { _comBuffer := 0, wire := { txAddress := 0, txBuffer := [], rxBuffer := [], dev := d, log := [] } }

/-- A chip state used for concrete checks: pins 0-3 are outputs, pins 4-7 are
inputs, the Output register holds `0b10110000`. -/
def sampleRegs : Regs :=
  { input := 0x0F, output := 0xB0, polarity := 0x21, config := 0xF0, ptr := 0 }

/-- A fresh driver in front of `sampleRegs`. -/
def sample : Driver Regs := Driver.init sampleRegs

/-! ## The record of transactions -/

/-- The status of a transmission (a read request has none). -/
def Txn.status : Txn → Option Nat
  | .write _ _ st => some st
  | .read _ _ _ => none

/-- The status of the last transmission in a record of transactions. -/
def lastStatus : List Txn → Option Nat
  | [] => none
  | t :: rest =>
    match lastStatus rest with
    | some c => some c
    | none => Txn.status t

/-- The step from `s` to `s1` added the transactions `new` to the record, all of
them addressed to `PCA9557_DEV_ADDR`, and the cached status of `s1` is the
status of the last transmission among them. -/
def Issued (s s1 : Driver δ) (new : List Txn) : Prop :=
  s1.wire.log = s.wire.log ++ new ∧
  new.map Txn.addr = List.replicate new.length PCA9557_DEV_ADDR ∧
  lastStatus new = some s1._comBuffer

/-- The public operations that issue bus transactions and update the cached
status. -/
inductive Op where
  | getMode (pin : Nat)
  | getState (pin : Nat)
  | getPolarity (pin : Nat)
  | setMode (pin newMode : Nat)
  | setModeAll (newMode : Nat)
  | setState (pin newState : Nat)
  | setStateAll (newState : Nat)
  | toggleState (pin : Nat)
  | toggleStateAll
  | setPolarity (pin newPolarity : Nat)
  | setPolarityAll (newPolarity : Nat)
  | reset

/-- Running a public operation: its return value (0 for a `void` member) and the
state it leaves. -/
def Op.run (bus : Bus δ) : Op → Driver δ → Nat × Driver δ
  | .getMode pin, s => PCA9557.getMode bus pin s
  | .getState pin, s => PCA9557.getState bus pin s
  | .getPolarity pin, s => PCA9557.getPolarity bus pin s
  | .setMode pin m, s => (0, PCA9557.setMode bus pin m s)
  | .setModeAll m, s => (0, PCA9557.setModeAll bus m s)
  | .setState pin st, s => (0, PCA9557.setState bus pin st s)
  | .setStateAll st, s => (0, PCA9557.setStateAll bus st s)
  | .toggleState pin, s => (0, PCA9557.toggleState bus pin s)
  | .toggleStateAll, s => (0, PCA9557.toggleStateAll bus s)
  | .setPolarity pin x, s => (0, PCA9557.setPolarity bus pin x s)
  | .setPolarityAll x, s => (0, PCA9557.setPolarityAll bus x s)
  | .reset, s => (0, PCA9557.reset bus s)

/-! ## Helper lemmas -/

/-! ## Bits of a byte -/

theorem bitRead_eq_div (v p : Nat) : bitRead v p = v / 2 ^ p % 2 := by
  simp [bitRead, Nat.and_one_is_mod, Nat.shiftRight_eq_div_pow]

theorem div_eq_toNat (v p : Nat) : v / 2 ^ p % 2 = (v.testBit p).toNat :=
  (Nat.toNat_testBit v p).symm

theorem one_shiftLeft_mod (p : Nat) (hp : p ≤ 7) : (1 <<< p) % 4294967296 = 2 ^ p := by
  rw [Nat.one_shiftLeft]
  apply Nat.mod_eq_of_lt
  calc 2 ^ p ≤ 2 ^ 7 := Nat.pow_le_pow_right (by decide) hp
    _ < 4294967296 := by norm_num

theorem testBit_byte (v q : Nat) : (v % 256).testBit q = (decide (q < 8) && v.testBit q) := by
  rw [show (256 : Nat) = 2 ^ 8 from rfl, Nat.testBit_mod_two_pow]

theorem testBit_ff (q : Nat) : Nat.testBit 255 q = decide (q < 8) :=
  Nat.testBit_two_pow_sub_one 8 q

theorem testBit_byteNot (c q : Nat) :
    (255 - c % 256).testBit q = (decide (q < 8) && !c.testBit q) := by
  have h : c % 256 < 2 ^ 8 := Nat.mod_lt _ (by norm_num)
  rw [show 255 - c % 256 = 2 ^ 8 - (c % 256 + 1) from by omega,
    Nat.testBit_two_pow_sub_succ h, testBit_byte]
  by_cases h8 : q < 8 <;> simp [h8]

theorem testBit_intNot (x q : Nat) :
    (intNot x).testBit q = (decide (q < 16) && !x.testBit q) := by
  unfold intNot
  have h : x % 65536 < 2 ^ 16 := Nat.mod_lt _ (by norm_num)
  rw [show 65535 - x % 65536 = 2 ^ 16 - (x % 65536 + 1) from by omega,
    Nat.testBit_two_pow_sub_succ h, show (65536 : Nat) = 2 ^ 16 from rfl,
    Nat.testBit_mod_two_pow]
  by_cases h16 : q < 16 <;> simp [h16]

theorem testBit_bitSet (v p q : Nat) (hp : p ≤ 7) :
    (bitSet v p).testBit q = (decide (q < 8) && (v.testBit q || decide (p = q))) := by
  unfold bitSet
  rw [one_shiftLeft_mod p hp, testBit_byte, Nat.testBit_or, Nat.testBit_two_pow]

theorem testBit_bitClear (v p q : Nat) (hp : p ≤ 7) :
    (bitClear v p).testBit q = (decide (q < 8) && (v.testBit q && !decide (p = q))) := by
  unfold bitClear
  have h2 : 2 ^ p < 2 ^ 32 := Nat.pow_lt_pow_right (by decide) (by omega)
  rw [one_shiftLeft_mod p hp, testBit_byte, Nat.testBit_and,
    show (4294967295 : Nat) - 2 ^ p = 2 ^ 32 - (2 ^ p + 1) from by omega,
    Nat.testBit_two_pow_sub_succ h2, Nat.testBit_two_pow]
  by_cases h8 : q < 8
  · have : q < 32 := by omega
    simp [h8, this]
  · simp [h8]

theorem testBit_bitWrite (v p m q : Nat) (hp : p ≤ 7) :
    (bitWrite v p m).testBit q =
      (decide (q < 8) && (if p = q then decide (m ≠ 0) else v.testBit q)) := by
  unfold bitWrite
  by_cases hq : p = q
  · subst hq
    by_cases hm : m = 0 <;> simp [hm, testBit_bitSet _ _ _ hp, testBit_bitClear _ _ _ hp]
  · by_cases hm : m = 0 <;> simp [hm, hq, testBit_bitSet _ _ _ hp, testBit_bitClear _ _ _ hp]

theorem byte_div (v p : Nat) (hp : p ≤ 7) : (v % 256) / 2 ^ p % 2 = v / 2 ^ p % 2 := by
  have h8 : p < 8 := by omega
  simp [div_eq_toNat, testBit_byte, h8]

/-! ## The driver in front of the chip (`idealBus`) -/

theorem Regs.get_ptr (d : Regs) (x p : Nat) : Regs.get { d with ptr := x } p = Regs.get d p := by
  unfold Regs.get
  rfl

theorem getReg_ideal (regPtr : Nat) (s : Driver Regs) :
    (getReg idealBus regPtr s).1 = Regs.get s.wire.dev (regPtr % 256) % 256 ∧
    (getReg idealBus regPtr s).2.wire.dev = { s.wire.dev with ptr := regPtr % 256 } := by
  simp [getReg, endCall, initCall, Wire.write, Wire.beginTransmission, Wire.endTransmission,
    Wire.requestFrom, Wire.available, Wire.read, idealBus, PCA9557_COM_SUCCESS,
    PCA9557_NUM_BYTES, Regs.get_ptr]
  omega

theorem setReg_ideal (regPtr newSetting : Nat) (s : Driver Regs) (h : 0 < regPtr) :
    (setReg idealBus regPtr newSetting s).wire.dev =
      { Regs.set s.wire.dev (regPtr % 256) (newSetting % 256) with ptr := regPtr % 256 } := by
  simp [setReg, h, endCall, initCall, Wire.write, Wire.beginTransmission, Wire.endTransmission,
    idealBus]

theorem setPin_ideal (pin regPtr v : Nat) (s : Driver Regs) (h : 0 < regPtr) :
    (setPin idealBus pin regPtr v s).wire.dev =
      { Regs.set s.wire.dev (regPtr % 256)
          (bitWrite (Regs.get s.wire.dev (regPtr % 256) % 256) pin v % 256)
        with ptr := regPtr % 256 } := by
  simp only [setPin, setReg_ideal _ _ _ h, (getReg_ideal regPtr s).1, (getReg_ideal regPtr s).2]
  unfold Regs.set
  split <;> rfl

theorem getPin_ideal (pin regPtr : Nat) (s : Driver Regs) :
    (getPin idealBus pin regPtr s).1 = (Regs.get s.wire.dev (regPtr % 256) % 256) / 2 ^ pin % 2 ∧
    (getPin idealBus pin regPtr s).2.wire.dev = { s.wire.dev with ptr := regPtr % 256 } := by
  simp only [getPin, (getReg_ideal regPtr s).1, (getReg_ideal regPtr s).2, bitRead_eq_div,
    and_self]

theorem getState_ideal (p : Nat) (s : Driver Regs) (hp : p ≤ 7) :
    (getState idealBus p s).1 =
      if s.wire.dev.config / 2 ^ p % 2 = 0 then s.wire.dev.output / 2 ^ p % 2
      else s.wire.dev.input / 2 ^ p % 2 := by
  simp only [getState, getMode, (getPin_ideal _ _ _).1, (getPin_ideal _ _ _).2, Regs.get_ptr]
  simp only [REG_CONFIG, Regs.get, Nat.reduceMod, byte_div _ _ hp]
  by_cases h : s.wire.dev.config / 2 ^ p % 2 = 0
  · simp [h, IO_HIGH, Regs.get, byte_div _ _ hp]
  · simp [h, IO_LOW, Regs.get, byte_div _ _ hp]

theorem getState_frame (p : Nat) (s : Driver Regs) :
    (getState idealBus p s).2.wire.dev.input = s.wire.dev.input ∧
    (getState idealBus p s).2.wire.dev.output = s.wire.dev.output ∧
    (getState idealBus p s).2.wire.dev.polarity = s.wire.dev.polarity ∧
    (getState idealBus p s).2.wire.dev.config = s.wire.dev.config := by
  simp only [getState, getMode, (getPin_ideal _ _ _).2, and_self]

theorem toggleState_ideal (p : Nat) (s : Driver Regs) :
    (toggleState idealBus p s).wire.dev =
      { s.wire.dev with output := ((s.wire.dev.output % 256) ^^^ (1 <<< p)) % 256, ptr := 1 } := by
  simp only [toggleState, setReg_ideal _ _ _ (show 0 < REG_OUTPUT by decide),
    (getReg_ideal _ _).1, (getReg_ideal _ _).2]
  rfl

theorem toggleState_flips (p : Nat) (s : Driver Regs) (hp : p ≤ 7)
    (hcfg : s.wire.dev.config / 2 ^ p % 2 = 0) :
    (getState idealBus p (toggleState idealBus p s)).1 = 1 - s.wire.dev.output / 2 ^ p % 2 := by
  rw [getState_ideal _ _ hp, toggleState_ideal]
  simp only [hcfg, if_true, div_eq_toNat, testBit_byte, Nat.testBit_xor, Nat.one_shiftLeft,
    Nat.testBit_two_pow]
  have h8 : p < 8 := by omega
  cases s.wire.dev.output.testBit p <;> simp [h8]

theorem toggleStateAll_ideal (s : Driver Regs) :
    (toggleStateAll idealBus s).wire.dev =
      { s.wire.dev with output := intNot (s.wire.dev.output % 256) % 256, ptr := 1 } := by
  simp only [toggleStateAll, setReg_ideal _ _ _ (show 0 < REG_OUTPUT by decide),
    (getReg_ideal _ _).1, (getReg_ideal _ _).2]
  rfl

theorem setPolarityAll_ideal (x : Nat) (s : Driver Regs) :
    (setPolarityAll idealBus x s).wire.dev =
      { s.wire.dev with
        polarity := ((s.wire.dev.polarity % 256 &&& intNot (s.wire.dev.config % 256)) |||
          ((if x ≠ 0 then PCA9557_ALL_INVERTED else PCA9557_ALL_NON_INVERTED) &&&
            s.wire.dev.config % 256)) % 256,
        ptr := 2 } := by
  simp only [setPolarityAll, setReg_ideal _ _ _ (show 0 < REG_POLARITY by decide),
    (getReg_ideal _ _).1, (getReg_ideal _ _).2, Regs.get_ptr]
  rfl

/-! ## The record of transactions on an arbitrary bus -/

theorem lastStatus_append (a b : List Txn) (c : Nat) (h : lastStatus b = some c) :
    lastStatus (a ++ b) = some c := by
  induction a with
  | nil => simpa using h
  | cons t rest ih => simp [lastStatus, ih]

theorem Issued.trans {s s1 s2 : Driver δ} {a b : List Txn} (h1 : Issued s s1 a)
    (h2 : Issued s1 s2 b) : Issued s s2 (a ++ b) := by
  obtain ⟨l1, a1, _⟩ := h1
  obtain ⟨l2, a2, c2⟩ := h2
  refine ⟨by rw [l2, l1, List.append_assoc], ?_, lastStatus_append _ _ _ c2⟩
  rw [List.map_append, a1, a2, List.length_append, List.replicate_add]

theorem drainLoop_frame (n : Nat) (w : Wire δ) :
    (drainLoop n w).log = w.log ∧ (drainLoop n w).dev = w.dev ∧
    (drainLoop n w).txAddress = w.txAddress ∧ (drainLoop n w).txBuffer = w.txBuffer := by
  induction n generalizing w with
  | zero => simp [drainLoop]
  | succ k ih =>
    unfold drainLoop
    split
    · obtain ⟨h1, h2, h3, h4⟩ := ih (Wire.read w).2
      rw [h1, h2, h3, h4]
      unfold Wire.read
      split <;> simp
    · simp

theorem drainLoop_available (n : Nat) (w : Wire δ) (h : Wire.available w ≤ n) :
    Wire.available (drainLoop n w) = 0 := by
  induction n generalizing w with
  | zero => simpa [drainLoop] using h
  | succ k ih =>
    unfold drainLoop
    split
    · apply ih
      unfold Wire.read Wire.available at *
      split <;> simp_all
    · omega

theorem drain_available (w : Wire δ) : Wire.available (drain w) = 0 :=
  drainLoop_available _ w (Nat.le_refl _)

theorem pointerWrite_spec (bus : Bus δ) (regPtr : Nat) (s : Driver δ) :
    (endCall bus (initCall regPtr s))._comBuffer =
      (bus.transmit PCA9557_DEV_ADDR [regPtr % 256] s.wire.dev).1 % 256 ∧
    (endCall bus (initCall regPtr s)).wire.log = s.wire.log ++
      [Txn.write PCA9557_DEV_ADDR [regPtr % 256]
        ((bus.transmit PCA9557_DEV_ADDR [regPtr % 256] s.wire.dev).1 % 256)] ∧
    (endCall bus (initCall regPtr s)).wire.dev =
      (bus.transmit PCA9557_DEV_ADDR [regPtr % 256] s.wire.dev).2 :=
  ⟨rfl, rfl, rfl⟩

theorem requestFrom_spec (bus : Bus δ) (a q : Nat) (w : Wire δ) :
    (Wire.requestFrom bus a q w).rxBuffer = (bus.request a q w.dev).1 ∧
    (Wire.requestFrom bus a q w).log = w.log ++ [Txn.read a q (bus.request a q w.dev).1] ∧
    (Wire.requestFrom bus a q w).dev = (bus.request a q w.dev).2 :=
  ⟨rfl, rfl, rfl⟩

theorem ping_spec (bus : Bus δ) (s : Driver δ) :
    (ping bus s).1 = (bus.transmit PCA9557_DEV_ADDR [] s.wire.dev).1 % 256 ∧
    (ping bus s).2.wire.log = s.wire.log ++
      [Txn.write PCA9557_DEV_ADDR [] ((bus.transmit PCA9557_DEV_ADDR [] s.wire.dev).1 % 256)] ∧
    (ping bus s).2.wire.rxBuffer = s.wire.rxBuffer ∧
    (ping bus s).2._comBuffer = s._comBuffer :=
  ⟨rfl, rfl, rfl, rfl⟩

theorem read_log (w : Wire δ) : (Wire.read w).2.log = w.log := by
  unfold Wire.read
  split <;> rfl

theorem getReg_fail (bus : Bus δ) (regPtr : Nat) (s : Driver δ)
    (h : (bus.transmit PCA9557_DEV_ADDR [regPtr % 256] s.wire.dev).1 % 256 ≠ 0) :
    (getReg bus regPtr s).1 = 0 ∧
    (getReg bus regPtr s).2._comBuffer =
      (bus.transmit PCA9557_DEV_ADDR [regPtr % 256] s.wire.dev).1 % 256 ∧
    (getReg bus regPtr s).2.wire.log = s.wire.log ++
      [Txn.write PCA9557_DEV_ADDR [regPtr % 256]
        ((bus.transmit PCA9557_DEV_ADDR [regPtr % 256] s.wire.dev).1 % 256)] := by
  have hp := pointerWrite_spec bus regPtr s
  have hc : ¬ (endCall bus (initCall regPtr s))._comBuffer = PCA9557_COM_SUCCESS := by
    rw [hp.1]
    exact h
  simp only [getReg, hc, if_false]
  exact ⟨trivial, hp.1, hp.2.1⟩

theorem getReg_one (bus : Bus δ) (regPtr : Nat) (s : Driver δ)
    (h : (bus.transmit PCA9557_DEV_ADDR [regPtr % 256] s.wire.dev).1 % 256 = 0)
    (h1 : (bus.request PCA9557_DEV_ADDR PCA9557_NUM_BYTES
      (bus.transmit PCA9557_DEV_ADDR [regPtr % 256] s.wire.dev).2).1.length = 1) :
    (getReg bus regPtr s).2._comBuffer = 0 ∧
    (getReg bus regPtr s).2.wire.log = s.wire.log ++
      [Txn.write PCA9557_DEV_ADDR [regPtr % 256] 0,
       Txn.read PCA9557_DEV_ADDR PCA9557_NUM_BYTES
        (bus.request PCA9557_DEV_ADDR PCA9557_NUM_BYTES
          (bus.transmit PCA9557_DEV_ADDR [regPtr % 256] s.wire.dev).2).1] := by
  have hp := pointerWrite_spec bus regPtr s
  have hr := requestFrom_spec bus PCA9557_DEV_ADDR PCA9557_NUM_BYTES
    (endCall bus (initCall regPtr s)).wire
  have hc : (endCall bus (initCall regPtr s))._comBuffer = PCA9557_COM_SUCCESS := by
    rw [hp.1]
    exact h
  have hl : Wire.available (Wire.requestFrom bus PCA9557_DEV_ADDR PCA9557_NUM_BYTES
      (endCall bus (initCall regPtr s)).wire) = PCA9557_NUM_BYTES := by
    rw [Wire.available, hr.1, hp.2.2]
    exact h1
  simp only [getReg, hc, hl, if_true]
  refine ⟨rfl, ?_⟩
  rw [read_log, hr.2.1, hp.2.1, hp.2.2, h, List.append_assoc]
  rfl

theorem getReg_wrong (bus : Bus δ) (regPtr : Nat) (s : Driver δ)
    (h : (bus.transmit PCA9557_DEV_ADDR [regPtr % 256] s.wire.dev).1 % 256 = 0)
    (h1 : (bus.request PCA9557_DEV_ADDR PCA9557_NUM_BYTES
      (bus.transmit PCA9557_DEV_ADDR [regPtr % 256] s.wire.dev).2).1.length ≠ 1) :
    (getReg bus regPtr s).1 = 0 ∧
    Wire.available (getReg bus regPtr s).2.wire = 0 ∧
    (getReg bus regPtr s).2._comBuffer =
      (bus.transmit PCA9557_DEV_ADDR []
        (bus.request PCA9557_DEV_ADDR PCA9557_NUM_BYTES
          (bus.transmit PCA9557_DEV_ADDR [regPtr % 256] s.wire.dev).2).2).1 % 256 ∧
    (getReg bus regPtr s).2.wire.log = s.wire.log ++
      [Txn.write PCA9557_DEV_ADDR [regPtr % 256] 0,
       Txn.read PCA9557_DEV_ADDR PCA9557_NUM_BYTES
        (bus.request PCA9557_DEV_ADDR PCA9557_NUM_BYTES
          (bus.transmit PCA9557_DEV_ADDR [regPtr % 256] s.wire.dev).2).1,
       Txn.write PCA9557_DEV_ADDR []
        ((bus.transmit PCA9557_DEV_ADDR []
          (bus.request PCA9557_DEV_ADDR PCA9557_NUM_BYTES
            (bus.transmit PCA9557_DEV_ADDR [regPtr % 256] s.wire.dev).2).2).1 % 256)] := by
  have hp := pointerWrite_spec bus regPtr s
  have hr := requestFrom_spec bus PCA9557_DEV_ADDR PCA9557_NUM_BYTES
    (endCall bus (initCall regPtr s)).wire
  have hc : (endCall bus (initCall regPtr s))._comBuffer = PCA9557_COM_SUCCESS := by
    rw [hp.1]
    exact h
  have hl : ¬ Wire.available (Wire.requestFrom bus PCA9557_DEV_ADDR PCA9557_NUM_BYTES
      (endCall bus (initCall regPtr s)).wire) = PCA9557_NUM_BYTES := by
    rw [Wire.available, hr.1, hp.2.2]
    exact h1
  have hd := drainLoop_frame (Wire.available (Wire.requestFrom bus PCA9557_DEV_ADDR
    PCA9557_NUM_BYTES (endCall bus (initCall regPtr s)).wire)) (Wire.requestFrom bus
    PCA9557_DEV_ADDR PCA9557_NUM_BYTES (endCall bus (initCall regPtr s)).wire)
  have ha := drain_available (Wire.requestFrom bus PCA9557_DEV_ADDR
    PCA9557_NUM_BYTES (endCall bus (initCall regPtr s)).wire)
  simp only [getReg, hc, hl, if_true, if_false]
  refine ⟨trivial, ?_, ?_, ?_⟩
  · rw [Wire.available, (ping_spec _ _).2.2.1]
    exact ha
  · rw [(ping_spec _ _).1]
    show (bus.transmit PCA9557_DEV_ADDR [] (drain _).dev).1 % 256 = _
    rw [drain, hd.2.1, hr.2.2, hp.2.2]
  · rw [(ping_spec _ _).2.1]
    show (drain _).log ++ [Txn.write PCA9557_DEV_ADDR []
      ((bus.transmit PCA9557_DEV_ADDR [] (drain _).dev).1 % 256)] = _
    rw [drain, hd.1, hd.2.1, hr.2.1, hr.2.2, hp.2.1, hp.2.2, h, List.append_assoc,
      List.append_assoc]
    rfl

theorem getReg_issued (bus : Bus δ) (regPtr : Nat) (s : Driver δ) :
    ∃ new, Issued s (getReg bus regPtr s).2 new ∧ 0 < new.length := by
  by_cases h : (bus.transmit PCA9557_DEV_ADDR [regPtr % 256] s.wire.dev).1 % 256 = 0
  · by_cases h1 : (bus.request PCA9557_DEV_ADDR PCA9557_NUM_BYTES
        (bus.transmit PCA9557_DEV_ADDR [regPtr % 256] s.wire.dev).2).1.length = 1
    · obtain ⟨c, l⟩ := getReg_one bus regPtr s h h1
      exact ⟨_, ⟨l, rfl, by rw [c]; rfl⟩, by simp⟩
    · obtain ⟨_, _, c, l⟩ := getReg_wrong bus regPtr s h h1
      exact ⟨_, ⟨l, rfl, by rw [c]; rfl⟩, by simp⟩
  · obtain ⟨_, c, l⟩ := getReg_fail bus regPtr s h
    exact ⟨_, ⟨l, rfl, by rw [c]; rfl⟩, by simp⟩

theorem setReg_issued (bus : Bus δ) (regPtr v : Nat) (s : Driver δ) (h : 0 < regPtr) :
    ∃ new, Issued s (setReg bus regPtr v s) new ∧ 0 < new.length := by
  refine ⟨[Txn.write PCA9557_DEV_ADDR [regPtr % 256, v % 256]
    ((bus.transmit PCA9557_DEV_ADDR [regPtr % 256, v % 256] s.wire.dev).1 % 256)], ⟨?_, rfl, ?_⟩,
    by simp⟩
  · simp only [setReg, h, if_true]
    rfl
  · simp only [setReg, h, if_true]
    rfl

theorem pointerWrite_issued (bus : Bus δ) (regPtr : Nat) (s : Driver δ) :
    ∃ new, Issued s (endCall bus (initCall regPtr s)) new ∧ 0 < new.length :=
  ⟨_, ⟨(pointerWrite_spec bus regPtr s).2.1, rfl, by rw [(pointerWrite_spec bus regPtr s).1]; rfl⟩,
    by simp⟩

theorem issued_then {s s1 s2 : Driver δ}
    (h1 : ∃ new, Issued s s1 new ∧ 0 < new.length)
    (h2 : ∃ new, Issued s1 s2 new ∧ 0 < new.length) :
    ∃ new, Issued s s2 new ∧ 0 < new.length := by
  obtain ⟨a, ha, _⟩ := h1
  obtain ⟨b, hb, hpos⟩ := h2
  exact ⟨a ++ b, ha.trans hb, by rw [List.length_append]; omega⟩

theorem setPin_issued (bus : Bus δ) (pin regPtr v : Nat) (s : Driver δ) (h : 0 < regPtr) :
    ∃ new, Issued s (setPin bus pin regPtr v s) new ∧ 0 < new.length :=
  issued_then (getReg_issued bus regPtr s) (setReg_issued bus regPtr _ _ h)

theorem run_issued (bus : Bus δ) (op : Op) (s : Driver δ) :
    ∃ new, Issued s (op.run bus s).2 new ∧ 0 < new.length := by
  cases op with
  | getMode pin => exact getReg_issued bus _ s
  | getState pin => exact issued_then (getReg_issued bus _ s) (getReg_issued bus _ _)
  | getPolarity pin => exact getReg_issued bus _ s
  | setMode pin m => exact setPin_issued bus _ _ _ s (by decide)
  | setModeAll m => exact setReg_issued bus _ _ s (by decide)
  | setState pin st => exact setPin_issued bus _ _ _ s (by decide)
  | setStateAll st => exact setReg_issued bus _ _ s (by decide)
  | toggleState pin =>
    exact issued_then (getReg_issued bus _ s) (setReg_issued bus _ _ _ (by decide))
  | toggleStateAll =>
    exact issued_then (getReg_issued bus _ s) (setReg_issued bus _ _ _ (by decide))
  | setPolarity pin x => exact setPin_issued bus _ _ _ s (by decide)
  | setPolarityAll x =>
    exact issued_then (getReg_issued bus _ s)
      (issued_then (getReg_issued bus _ _) (setReg_issued bus _ _ _ (by decide)))
  | reset =>
    exact issued_then (setReg_issued bus _ _ s (by decide))
      (issued_then (setReg_issued bus _ _ _ (by decide))
        (issued_then (issued_then (getReg_issued bus _ _)
          (issued_then (getReg_issued bus _ _) (setReg_issued bus _ _ _ (by decide))))
          (pointerWrite_issued bus _ _)))

/-! ## Round trips and register effects on the chip -/

/-- C1: on the chip behind a bus where every transaction succeeds, for every pin
`p` in 0..7, every mode `m` (`IO_OUTPUT` or `IO_INPUT`) and every initial state,
`setMode(p, m)` followed by `getMode(p)` returns `m`. -/
theorem setMode_getMode (p m : Nat) (s : Driver Regs) (hp : p ≤ 7)
    (hm : m = IO_OUTPUT ∨ m = IO_INPUT) :
    (getMode idealBus p (setMode idealBus p m s)).1 = m := by
  simp only [getMode, setMode, (getPin_ideal _ _ _).1,
    setPin_ideal _ _ _ _ (show 0 < REG_CONFIG by decide)]
  simp only [REG_CONFIG, Regs.get, Regs.set, Nat.reduceMod, div_eq_toNat, testBit_byte,
    testBit_bitWrite _ _ _ _ hp]
  have h8 : p < 8 := by omega
  rcases hm with rfl | rfl <;> simp [IO_OUTPUT, IO_INPUT, h8]

theorem setMode_getMode_witness :
    (5 ≤ 7 ∧ (IO_INPUT = IO_OUTPUT ∨ IO_INPUT = IO_INPUT)) ∧
    (getMode idealBus 5 (setMode idealBus 5 IO_INPUT sample)).1 = IO_INPUT :=
  ⟨⟨by decide, Or.inr rfl⟩, setMode_getMode 5 IO_INPUT sample (by decide) (Or.inr rfl)⟩

/-- C2: on the chip, for every pin `p` in 0..7 whose Configuration bit is 0
(output), every state `st` (`IO_LOW` or `IO_HIGH`) and every contents of the
other registers, `setState(p, st)` followed by `getState(p)` returns `st`. -/
theorem setState_getState (p st : Nat) (s : Driver Regs) (hp : p ≤ 7)
    (hcfg : s.wire.dev.config / 2 ^ p % 2 = 0) (hst : st = IO_LOW ∨ st = IO_HIGH) :
    (getState idealBus p (setState idealBus p st s)).1 = st := by
  rw [getState_ideal _ _ hp]
  simp only [setState, setPin_ideal _ _ _ _ (show 0 < REG_OUTPUT by decide)]
  simp only [REG_OUTPUT, Regs.get, Regs.set, Nat.reduceMod, hcfg, if_true, div_eq_toNat,
    testBit_byte, testBit_bitWrite _ _ _ _ hp]
  have h8 : p < 8 := by omega
  rcases hst with rfl | rfl <;> simp [IO_LOW, IO_HIGH, h8]

theorem setState_getState_witness :
    (2 ≤ 7 ∧ sample.wire.dev.config / 2 ^ 2 % 2 = 0 ∧ (IO_HIGH = IO_LOW ∨ IO_HIGH = IO_HIGH)) ∧
    (getState idealBus 2 (setState idealBus 2 IO_HIGH sample)).1 = IO_HIGH :=
  ⟨⟨by decide, by decide, Or.inr rfl⟩,
    setState_getState 2 IO_HIGH sample (by decide) (by decide) (Or.inr rfl)⟩

/-- C3: on the chip, for every pin `p` in 0..7 and every register contents,
`getState(p)` returns bit `p` of the Output register when Configuration bit `p`
is 0 (output) and bit `p` of the Input register when it is 1 (input); the result
is 0 or 1. -/
theorem getState_reads_register (p : Nat) (s : Driver Regs) (hp : p ≤ 7) :
    (s.wire.dev.config / 2 ^ p % 2 = 0 →
      (getState idealBus p s).1 = s.wire.dev.output / 2 ^ p % 2) ∧
    (s.wire.dev.config / 2 ^ p % 2 = 1 →
      (getState idealBus p s).1 = s.wire.dev.input / 2 ^ p % 2) ∧
    ((getState idealBus p s).1 = 0 ∨ (getState idealBus p s).1 = 1) := by
  rw [getState_ideal _ _ hp]
  refine ⟨fun h => by simp [h], fun h => by simp [h], ?_⟩
  split <;> omega

theorem getState_reads_register_witness :
    (sample.wire.dev.config / 2 ^ 5 % 2 = 1 ∧ sample.wire.dev.input / 2 ^ 5 % 2 = 0 ∧
      (getState idealBus 5 sample).1 = 0) ∧
    (sample.wire.dev.config / 2 ^ 3 % 2 = 0 ∧ sample.wire.dev.input / 2 ^ 3 % 2 = 1 ∧
      sample.wire.dev.output / 2 ^ 3 % 2 = 0 ∧ (getState idealBus 3 sample).1 = 0) :=
  ⟨⟨by decide, by decide,
      ((getState_reads_register 5 sample (by decide)).2.1 (by decide)).trans (by decide)⟩,
    ⟨by decide, by decide, by decide,
      ((getState_reads_register 3 sample (by decide)).1 (by decide)).trans (by decide)⟩⟩

/-- C4: on the chip, for every pin `p` in 0..7 configured as output and every
Output register contents, `getState(p)` after `toggleState(p)` is `1 - v` for
the value `v` that `getState(p)` returned before it, and `toggleState(p)` leaves
the other seven Output bits and the Configuration and Polarity registers
unchanged. -/
theorem toggleState_complements (p : Nat) (s : Driver Regs) (hp : p ≤ 7)
    (hcfg : s.wire.dev.config / 2 ^ p % 2 = 0) :
    (getState idealBus p (toggleState idealBus p (getState idealBus p s).2)).1 =
      1 - (getState idealBus p s).1 ∧
    (∀ q, q ≤ 7 → q ≠ p →
      (toggleState idealBus p s).wire.dev.output / 2 ^ q % 2 = s.wire.dev.output / 2 ^ q % 2) ∧
    (toggleState idealBus p s).wire.dev.config = s.wire.dev.config ∧
    (toggleState idealBus p s).wire.dev.polarity = s.wire.dev.polarity := by
  obtain ⟨_, fo, _, fc⟩ := getState_frame p s
  refine ⟨?_, ?_, ?_, ?_⟩
  · rw [toggleState_flips p _ hp (by rw [fc]; exact hcfg), fo, getState_ideal _ _ hp, if_pos hcfg]
  · intro q hq hne
    have hq8 : q < 8 := by omega
    have hpq : ¬ p = q := fun h => hne h.symm
    rw [toggleState_ideal]
    simp [div_eq_toNat, testBit_byte, Nat.one_shiftLeft, Nat.testBit_two_pow, hq8, hpq]
  · rw [toggleState_ideal]
  · rw [toggleState_ideal]

theorem toggleState_complements_witness :
    (2 ≤ 7 ∧ sample.wire.dev.config / 2 ^ 2 % 2 = 0) ∧
    (getState idealBus 2 sample).1 = 0 ∧
    (getState idealBus 2 (toggleState idealBus 2 (getState idealBus 2 sample).2)).1 = 1 ∧
    (toggleState idealBus 2 sample).wire.dev.config = 0xF0 :=
  ⟨⟨by decide, by decide⟩, by decide,
    ((toggleState_complements 2 sample (by decide) (by decide)).1).trans (by decide),
    (toggleState_complements 2 sample (by decide) (by decide)).2.2.1⟩

/-- C5: on the chip, for every Polarity contents `P`, Configuration contents `C`
and polarity value `x`, after the all-pins `setPolarity(x)` each pin `p` in 0..7
has `getPolarity(p) = x` if Configuration bit `p` is 1 (input) and
`getPolarity(p)` equal to bit `p` of `P` if it is 0 (output); the Polarity
register becomes `(P AND NOT C) OR (X AND C)` in 8 bits, with `X = 0xFF` for
inverted and `0x00` for non-inverted. -/
theorem setPolarityAll_masked (x : Nat) (s : Driver Regs)
    (hx : x = IO_NON_INVERTED ∨ x = IO_INVERTED) :
    (∀ p, p ≤ 7 →
      (getPolarity idealBus p (setPolarityAll idealBus x s)).1 =
        if s.wire.dev.config / 2 ^ p % 2 = 1 then x else s.wire.dev.polarity / 2 ^ p % 2) ∧
    (setPolarityAll idealBus x s).wire.dev.polarity =
      ((s.wire.dev.polarity &&& (255 - s.wire.dev.config % 256)) |||
        ((if x = IO_INVERTED then 0xFF else 0x00) &&& s.wire.dev.config)) % 256 := by
  constructor
  · intro p hp
    have h8 : p < 8 := by omega
    have h16 : p < 16 := by omega
    simp only [getPolarity, (getPin_ideal _ _ _).1, setPolarityAll_ideal, REG_POLARITY, Regs.get,
      Nat.reduceMod, Nat.mod_mod, div_eq_toNat, testBit_byte, Nat.testBit_or, Nat.testBit_and,
      testBit_intNot]
    rcases hx with rfl | rfl <;>
      cases s.wire.dev.config.testBit p <;> cases s.wire.dev.polarity.testBit p <;>
      simp [IO_NON_INVERTED, IO_INVERTED, PCA9557_ALL_INVERTED, PCA9557_ALL_NON_INVERTED, h8, h16,
        testBit_ff]
  · rw [setPolarityAll_ideal]
    apply Nat.eq_of_testBit_eq
    intro q
    simp only [testBit_byte, Nat.testBit_or, Nat.testBit_and, testBit_intNot, testBit_byteNot]
    by_cases h8 : q < 8
    · have h16 : q < 16 := by omega
      rcases hx with rfl | rfl <;>
        simp [IO_NON_INVERTED, IO_INVERTED, PCA9557_ALL_INVERTED, PCA9557_ALL_NON_INVERTED, h8,
          h16, testBit_ff]
    · simp [h8]

theorem setPolarityAll_masked_witness :
    (IO_INVERTED = IO_NON_INVERTED ∨ IO_INVERTED = IO_INVERTED) ∧
    (setPolarityAll idealBus IO_INVERTED sample).wire.dev.polarity = 0xF1 ∧
    (getPolarity idealBus 6 (setPolarityAll idealBus IO_INVERTED sample)).1 = 1 ∧
    (getPolarity idealBus 1 (setPolarityAll idealBus IO_INVERTED sample)).1 = 0 :=
  ⟨Or.inr rfl,
    ((setPolarityAll_masked IO_INVERTED sample (Or.inr rfl)).2).trans (by decide),
    ((setPolarityAll_masked IO_INVERTED sample (Or.inr rfl)).1 6 (by decide)).trans (by decide),
    ((setPolarityAll_masked IO_INVERTED sample (Or.inr rfl)).1 1 (by decide)).trans (by decide)⟩

theorem pointerWrite_ideal (regPtr : Nat) (s : Driver Regs) :
    (endCall idealBus (initCall regPtr s)).wire.dev = { s.wire.dev with ptr := regPtr % 256 } :=
  rfl

theorem bitRead_zero (pin : Nat) : bitRead 0 pin = 0 := by
  simp [bitRead]

/-! ## Reset, toggle of all pins, failed reads, cached status, addressing -/

/-- C6: on the chip, from every initial contents of the registers, `reset()`
leaves Configuration = 0xFF, Output = 0xFF and Polarity = 0x00; and on every
bus, the last transaction recorded by `reset()` is the pointer-only write that
selects the Input register, and `getComResult()` right after `reset()` is the
status of that transaction. -/
theorem reset_registers_and_status (bus : Bus δ) (s : Driver δ) (r : Driver Regs) :
    ((reset idealBus r).wire.dev.config = 0xFF ∧
      (reset idealBus r).wire.dev.output = 0xFF ∧
      (reset idealBus r).wire.dev.polarity = 0x00) ∧
    (reset bus s).wire.log.getLast? =
      some (Txn.write PCA9557_DEV_ADDR [REG_INPUT] (getComResult (reset bus s))) ∧
    getComResult (reset bus s) =
      (bus.transmit PCA9557_DEV_ADDR [REG_INPUT]
        (setPolarityAll bus IO_NON_INVERTED
          (setStateAll bus IO_HIGH (setModeAll bus IO_INPUT s))).wire.dev).1 % 256 := by
  refine ⟨?_, ?_, rfl⟩
  · simp only [reset, pointerWrite_ideal, setPolarityAll_ideal, setStateAll, setModeAll,
      setReg_ideal _ _ _ (show 0 < REG_OUTPUT by decide),
      setReg_ideal _ _ _ (show 0 < REG_CONFIG by decide)]
    refine ⟨rfl, rfl, ?_⟩
    apply Nat.eq_of_testBit_eq
    intro q
    simp only [REG_CONFIG, REG_OUTPUT, Regs.set, IO_INPUT, IO_HIGH, IO_NON_INVERTED,
      PCA9557_ALL_INPUT, PCA9557_ALL_NON_INVERTED, testBit_byte, Nat.testBit_or, Nat.testBit_and,
      testBit_intNot]
    by_cases h8 : q < 8
    · have h16 : q < 16 := by omega
      simp [h8, h16, testBit_ff]
    · simp [h8]
  · unfold reset
    rw [(pointerWrite_spec bus _ _).2.1, List.getLast?_append, getComResult,
      (pointerWrite_spec bus _ _).1]
    rfl

/-- C7: on the chip, for every Output register contents `v` (a byte) the
no-argument `toggleState()` leaves the Output register equal to `255 - v` and
leaves Configuration and Polarity unchanged. -/
theorem toggleStateAll_complements (s : Driver Regs) (hv : s.wire.dev.output < 256) :
    (toggleStateAll idealBus s).wire.dev.output = 255 - s.wire.dev.output ∧
    (toggleStateAll idealBus s).wire.dev.config = s.wire.dev.config ∧
    (toggleStateAll idealBus s).wire.dev.polarity = s.wire.dev.polarity := by
  rw [toggleStateAll_ideal]
  refine ⟨?_, rfl, rfl⟩
  show intNot (s.wire.dev.output % 256) % 256 = 255 - s.wire.dev.output
  unfold intNot
  omega

theorem toggleStateAll_complements_witness :
    sample.wire.dev.output = 0b10110000 ∧ sample.wire.dev.output < 256 ∧
    (toggleStateAll idealBus sample).wire.dev.output = 0b01001111 ∧
    (toggleStateAll idealBus sample).wire.dev.config = 0xF0 ∧
    (toggleStateAll idealBus sample).wire.dev.polarity = 0x21 :=
  ⟨by decide, by decide, (toggleStateAll_complements sample (by decide)).1,
    (toggleStateAll_complements sample (by decide)).2.1,
    (toggleStateAll_complements sample (by decide)).2.2⟩

/-- C8: for every register pointer and every bus, when the pointer write of
`getReg` gets status 0 but the number of bytes available after the one-byte
request is not 1, `getReg` returns 0, no byte is left available, the last
transaction recorded is the presence check (a transmission without data) and
`getComResult()` afterwards is the status of that presence check. -/
theorem getReg_malformed_read (bus : Bus δ) (regPtr : Nat) (s : Driver δ)
    (hok : (bus.transmit PCA9557_DEV_ADDR [regPtr % 256] s.wire.dev).1 % 256 =
      PCA9557_COM_SUCCESS)
    (hlen : (bus.request PCA9557_DEV_ADDR PCA9557_NUM_BYTES
      (bus.transmit PCA9557_DEV_ADDR [regPtr % 256] s.wire.dev).2).1.length ≠
        PCA9557_NUM_BYTES) :
    (getReg bus regPtr s).1 = 0 ∧
    Wire.available (getReg bus regPtr s).2.wire = 0 ∧
    getComResult (getReg bus regPtr s).2 =
      (bus.transmit PCA9557_DEV_ADDR []
        (bus.request PCA9557_DEV_ADDR PCA9557_NUM_BYTES
          (bus.transmit PCA9557_DEV_ADDR [regPtr % 256] s.wire.dev).2).2).1 % 256 ∧
    (getReg bus regPtr s).2.wire.log.getLast? =
      some (Txn.write PCA9557_DEV_ADDR [] (getComResult (getReg bus regPtr s).2)) := by
  obtain ⟨v, a, c, l⟩ := getReg_wrong bus regPtr s hok hlen
  refine ⟨v, a, c, ?_⟩
  rw [l, getComResult, c]
  simp

theorem getReg_malformed_read_witness :
    ((scriptedBus.transmit PCA9557_DEV_ADDR [REG_CONFIG % 256]
        (Driver.init ([0, 4], [[1, 2, 3]])).wire.dev).1 % 256 = PCA9557_COM_SUCCESS ∧
      (scriptedBus.request PCA9557_DEV_ADDR PCA9557_NUM_BYTES
        (scriptedBus.transmit PCA9557_DEV_ADDR [REG_CONFIG % 256]
          (Driver.init ([0, 4], [[1, 2, 3]])).wire.dev).2).1.length ≠ PCA9557_NUM_BYTES) ∧
    (getReg scriptedBus REG_CONFIG (Driver.init ([0, 4], [[1, 2, 3]]))).1 = 0 ∧
    Wire.available (getReg scriptedBus REG_CONFIG (Driver.init ([0, 4], [[1, 2, 3]]))).2.wire = 0 ∧
    getComResult (getReg scriptedBus REG_CONFIG (Driver.init ([0, 4], [[1, 2, 3]]))).2 = 4 :=
  ⟨⟨by decide, by decide⟩,
    (getReg_malformed_read scriptedBus REG_CONFIG (Driver.init ([0, 4], [[1, 2, 3]]))
      (by decide) (by decide)).1,
    (getReg_malformed_read scriptedBus REG_CONFIG (Driver.init ([0, 4], [[1, 2, 3]]))
      (by decide) (by decide)).2.1,
    ((getReg_malformed_read scriptedBus REG_CONFIG (Driver.init ([0, 4], [[1, 2, 3]]))
      (by decide) (by decide)).2.2.1).trans (by decide)⟩

/-- C9, as stated, fails: on a bus whose first transmission gets status 2 and
whose second gets status 0, `setMode(IO0, IO_INPUT)` records a transmission
that ended with the nonzero status 2, yet `getComResult()` right after it
returns 0. -/
theorem failure_overwritten_counterexample :
    (setMode scriptedBus 0 IO_INPUT (Driver.init ([2, 0], []))).wire.log =
      [Txn.write PCA9557_DEV_ADDR [REG_CONFIG] 2, Txn.write PCA9557_DEV_ADDR [REG_CONFIG, 1] 0] ∧
    getComResult (setMode scriptedBus 0 IO_INPUT (Driver.init ([2, 0], []))) = 0 ∧
    ¬ (∀ t ∈ (setMode scriptedBus 0 IO_INPUT (Driver.init ([2, 0], []))).wire.log,
        ∀ c, Txn.status t = some c → c ≠ 0 →
          getComResult (setMode scriptedBus 0 IO_INPUT (Driver.init ([2, 0], []))) = c) := by
  refine ⟨by decide, by decide, fun h => ?_⟩
  have h2 := h (Txn.write PCA9557_DEV_ADDR [REG_CONFIG] 2) (by decide) 2 rfl (by decide)
  exact absurd h2 (by decide)

/-- C9, amended: for every public operation that updates the cached status and
every bus, the operation issues at least one transaction and `getComResult()`
right after it is the status of the last transmission the operation issued (the
status of an earlier transmission is overwritten); and a register read whose
pointer write gets a nonzero status, or which finds a number of bytes other than
one, yields 0, also as a pin value. -/
theorem cached_status_is_last_transmission (bus : Bus δ) (op : Op) (s : Driver δ)
    (regPtr pin : Nat) :
    (∃ new, (op.run bus s).2.wire.log = s.wire.log ++ new ∧ 0 < new.length ∧
      lastStatus new = some (getComResult (op.run bus s).2)) ∧
    ((bus.transmit PCA9557_DEV_ADDR [regPtr % 256] s.wire.dev).1 % 256 ≠ 0 →
      (getReg bus regPtr s).1 = 0 ∧ (getPin bus pin regPtr s).1 = 0 ∧
      getComResult (getReg bus regPtr s).2 =
        (bus.transmit PCA9557_DEV_ADDR [regPtr % 256] s.wire.dev).1 % 256) ∧
    ((bus.transmit PCA9557_DEV_ADDR [regPtr % 256] s.wire.dev).1 % 256 = 0 →
      (bus.request PCA9557_DEV_ADDR PCA9557_NUM_BYTES
        (bus.transmit PCA9557_DEV_ADDR [regPtr % 256] s.wire.dev).2).1.length ≠ 1 →
      (getReg bus regPtr s).1 = 0 ∧ (getPin bus pin regPtr s).1 = 0) := by
  refine ⟨?_, fun h => ?_, fun h h1 => ?_⟩
  · obtain ⟨new, ⟨l, _, c⟩, hpos⟩ := run_issued bus op s
    exact ⟨new, l, hpos, c⟩
  · obtain ⟨v, c, _⟩ := getReg_fail bus regPtr s h
    refine ⟨v, ?_, c⟩
    show bitRead (getReg bus regPtr s).1 pin = 0
    rw [v, bitRead_zero]
  · obtain ⟨v, _⟩ := getReg_wrong bus regPtr s h h1
    refine ⟨v, ?_⟩
    show bitRead (getReg bus regPtr s).1 pin = 0
    rw [v, bitRead_zero]

theorem cached_status_is_last_transmission_witness :
    (scriptedBus.transmit PCA9557_DEV_ADDR [REG_CONFIG % 256]
      (Driver.init ([2, 0], [])).wire.dev).1 % 256 ≠ 0 ∧
    (getReg scriptedBus REG_CONFIG (Driver.init ([2, 0], []))).1 = 0 ∧
    (getPin scriptedBus 0 REG_CONFIG (Driver.init ([2, 0], []))).1 = 0 ∧
    getComResult (getReg scriptedBus REG_CONFIG (Driver.init ([2, 0], []))).2 = 2 ∧
    lastStatus ((Op.setMode 0 IO_INPUT).run scriptedBus (Driver.init ([2, 0], []))).2.wire.log =
      some (getComResult
        ((Op.setMode 0 IO_INPUT).run scriptedBus (Driver.init ([2, 0], []))).2) ∧
    (getPin scriptedBus 0 REG_CONFIG (Driver.init ([0, 4], [[1, 2, 3]]))).1 = 0 :=
  ⟨by decide,
    ((cached_status_is_last_transmission scriptedBus (Op.setMode 0 IO_INPUT)
      (Driver.init ([2, 0], [])) REG_CONFIG 0).2.1 (by decide)).1,
    ((cached_status_is_last_transmission scriptedBus (Op.setMode 0 IO_INPUT)
      (Driver.init ([2, 0], [])) REG_CONFIG 0).2.1 (by decide)).2.1,
    (((cached_status_is_last_transmission scriptedBus (Op.setMode 0 IO_INPUT)
      (Driver.init ([2, 0], [])) REG_CONFIG 0).2.1 (by decide)).2.2).trans (by decide),
    by decide,
    ((cached_status_is_last_transmission scriptedBus (Op.setMode 0 IO_INPUT)
      (Driver.init ([0, 4], [[1, 2, 3]])) REG_CONFIG 0).2.2 (by decide) (by decide)).2⟩

/-- C10, as stated, fails: the one transaction that `ping()` issues is
addressed to 0x18 (24), so not every transaction of the driver is addressed to
the 0x41 (65) printed in the header's address table. -/
theorem ping_not_addressed_to_0x41_counterexample :
    (ping scriptedBus (Driver.init ([], []))).2.wire.log = [Txn.write 0x18 [] 0] ∧
    ¬ (∀ t ∈ (ping scriptedBus (Driver.init ([], []))).2.wire.log,
        Txn.addr t = documentedAddress) := by
  refine ⟨by decide, fun h => ?_⟩
  have h1 := h (Txn.write 0x18 [] 0) (by decide)
  exact absurd h1 (by decide)

/-- C10, amended: every transaction that `ping` and every public operation
issue (the pointer write and the read request of `getReg`, the write of
`setReg`, the final pointer write of `reset`), on every bus, is addressed to
`PCA9557_DEV_ADDR`, the 7-bit address 0x18 (binary 0011000, decimal 24) of the
`#define`, which is not the 0x41 (65) printed in the header's address table. -/
theorem transactions_addressed_to_0x18 (bus : Bus δ) (op : Op) (s : Driver δ) :
    (∃ new, (op.run bus s).2.wire.log = s.wire.log ++ new ∧ 0 < new.length ∧
      new.map Txn.addr = List.replicate new.length 0x18) ∧
    (ping bus s).2.wire.log = s.wire.log ++ [Txn.write 0x18 [] (ping bus s).1] ∧
    (ping scriptedBus (Driver.init ([], []))).2.wire.log = [Txn.write 24 [] 0] ∧
    PCA9557_DEV_ADDR ≠ documentedAddress := by
  refine ⟨?_, rfl, by decide, by decide⟩
  obtain ⟨new, ⟨l, a, _⟩, hpos⟩ := run_issued bus op s
  exact ⟨new, l, hpos, a⟩

theorem bitWrite_bits (old p v q : Nat) (hp : p ≤ 7) (hq : q ≤ 7) (hv : v = 0 ∨ v = 1) :
    (bitWrite (old % 256) p v % 256) / 2 ^ q % 2 =
      if q = p then v else old / 2 ^ q % 2 := by
  have h8 : q < 8 := by omega
  simp only [div_eq_toNat, testBit_byte, testBit_bitWrite _ _ _ _ hp]
  by_cases hqp : q = p
  · subst hqp
    rcases hv with rfl | rfl <;> simp [h8]
  · have hpq : ¬ p = q := fun h => hqp h.symm
    simp [h8, hqp, hpq]

theorem byte_lt (x : Nat) : x % 256 < 256 :=
  Nat.mod_lt _ (by decide)

/-! ## Per-pin writes -/

/-- C11: on the chip, for every pin `p` in 0..7, every value `v` in {0, 1} and
every register contents, each of `setMode(p, v)`, `setState(p, v)` and
`setPolarity(p, v)` leaves its target register (Configuration, Output, Polarity)
a byte whose bit `p` is `v` and whose other seven bits are those of the old
contents, and leaves the other registers unchanged. -/
theorem per_pin_write_touches_one_bit (p v : Nat) (s : Driver Regs) (hp : p ≤ 7)
    (hv : v = 0 ∨ v = 1) :
    ((∀ q, q ≤ 7 → (setMode idealBus p v s).wire.dev.config / 2 ^ q % 2 =
          if q = p then v else s.wire.dev.config / 2 ^ q % 2) ∧
      (setMode idealBus p v s).wire.dev.config < 256 ∧
      (setMode idealBus p v s).wire.dev.input = s.wire.dev.input ∧
      (setMode idealBus p v s).wire.dev.output = s.wire.dev.output ∧
      (setMode idealBus p v s).wire.dev.polarity = s.wire.dev.polarity) ∧
    ((∀ q, q ≤ 7 → (setState idealBus p v s).wire.dev.output / 2 ^ q % 2 =
          if q = p then v else s.wire.dev.output / 2 ^ q % 2) ∧
      (setState idealBus p v s).wire.dev.output < 256 ∧
      (setState idealBus p v s).wire.dev.input = s.wire.dev.input ∧
      (setState idealBus p v s).wire.dev.polarity = s.wire.dev.polarity ∧
      (setState idealBus p v s).wire.dev.config = s.wire.dev.config) ∧
    ((∀ q, q ≤ 7 → (setPolarity idealBus p v s).wire.dev.polarity / 2 ^ q % 2 =
          if q = p then v else s.wire.dev.polarity / 2 ^ q % 2) ∧
      (setPolarity idealBus p v s).wire.dev.polarity < 256 ∧
      (setPolarity idealBus p v s).wire.dev.input = s.wire.dev.input ∧
      (setPolarity idealBus p v s).wire.dev.output = s.wire.dev.output ∧
      (setPolarity idealBus p v s).wire.dev.config = s.wire.dev.config) := by
  refine ⟨?_, ?_, ?_⟩
  · rw [setMode, setPin_ideal _ _ _ _ (show 0 < REG_CONFIG by decide)]
    exact ⟨fun q hq => bitWrite_bits _ p v q hp hq hv, byte_lt _, rfl, rfl, rfl⟩
  · rw [setState, setPin_ideal _ _ _ _ (show 0 < REG_OUTPUT by decide)]
    exact ⟨fun q hq => bitWrite_bits _ p v q hp hq hv, byte_lt _, rfl, rfl, rfl⟩
  · rw [setPolarity, setPin_ideal _ _ _ _ (show 0 < REG_POLARITY by decide)]
    exact ⟨fun q hq => bitWrite_bits _ p v q hp hq hv, byte_lt _, rfl, rfl, rfl⟩

theorem per_pin_write_touches_one_bit_witness :
    (2 ≤ 7 ∧ ((1 : Nat) = 0 ∨ (1 : Nat) = 1)) ∧
    sample.wire.dev.config = 0b11110000 ∧
    (setMode idealBus 2 1 sample).wire.dev.config = 0b11110100 ∧
    (setMode idealBus 2 1 sample).wire.dev.config / 2 ^ 2 % 2 = 1 ∧
    (setMode idealBus 2 1 sample).wire.dev.config / 2 ^ 5 % 2 =
      sample.wire.dev.config / 2 ^ 5 % 2 ∧
    (setState idealBus 2 1 sample).wire.dev.config = sample.wire.dev.config ∧
    (setPolarity idealBus 2 1 sample).wire.dev.output = sample.wire.dev.output :=
  ⟨⟨by decide, Or.inr rfl⟩, by decide, by decide,
    (per_pin_write_touches_one_bit 2 1 sample (by decide) (Or.inr rfl)).1.1 2 (by decide),
    (per_pin_write_touches_one_bit 2 1 sample (by decide) (Or.inr rfl)).1.1 5 (by decide),
    (per_pin_write_touches_one_bit 2 1 sample (by decide) (Or.inr rfl)).2.1.2.2.2.2,
    (per_pin_write_touches_one_bit 2 1 sample (by decide) (Or.inr rfl)).2.2.2.2.2.1⟩

end PCA9557
